import Mathlib

set_option linter.unusedVariables false

/-
Shallow embedding of the account-security core of the login API:
the in-memory user model (src/models/User.js) and the auth controller
(src/controllers/authController.js).

Timestamps are modelled as natural numbers (milliseconds since epoch);
JavaScript date subtraction is modelled in Int.  Nullable JavaScript
fields become Option.  The lockout duration and reset-token TTL, which
the source selects from the environment (2000 ms / 15 min, 10 s / 1 h),
are explicit parameters.  bcrypt hashing/comparison and JWT issuance are
external capabilities and appear as function parameters; the random
reset-token value is likewise passed in as a parameter.
-/

namespace LoginApi

/-- The `User` record of src/models/User.js.  `email` is an Option because a
profile update can overwrite it with `undefined` (see `updateProfile`);
`password` and `name` are null for placeholder records. -/
structure User where
  id : Nat
  email : Option String
  password : Option String
  name : Option String
  createdAt : Nat
  loginAttempts : Nat
  lastLoginAttempt : Option Nat
  isLocked : Bool
  passwordResetToken : Option String
  passwordResetExpires : Option Nat
deriving Repr, DecidableEq, Inhabited

/-- The module-level mutable state of User.js: the `users` array and the
`nextId` counter. -/
structure Store where
  users : List User
  nextId : Nat
deriving Repr, DecidableEq, Inhabited

/-- Initial state: `let users = []; let nextId = 1;`. -/
def Store.empty : Store := { users := [], nextId := 1 }

/-- The `User` constructor: fresh counters, no lock, no reset token. -/
def User.new (id : Nat) (email password name : Option String) (createdAt : Nat) : User :=
  { id := id, email := email, password := password, name := name, createdAt := createdAt,
    loginAttempts := 0, lastLoginAttempt := none, isLocked := false,
    passwordResetToken := none, passwordResetExpires := none }

/-- `users.findIndex(p)` followed by an in-place mutation `users[i] = f(users[i])`
of the first match: returns the mutated element (if any) and the new array. -/
def updateFirst (p : User → Bool) (f : User → User) : List User → Option User × List User
  | [] => (none, [])
  | u :: rest =>
    if p u then (some (f u), f u :: rest)
    else
      let r := updateFirst p f rest
      (r.1, u :: r.2)

/-- `UserModel.findByEmail`: `users.find(u => u.email === email)`. -/
def findByEmail (st : Store) (email : String) : Option User :=
  st.users.find? (fun u => u.email == some email)

/-- `UserModel.findById`: `users.find(u => u.id === parseInt(id))`. -/
def findById (st : Store) (id : Nat) : Option User :=
  st.users.find? (fun u => u.id == id)

/-- `UserModel.create`: builds a `new User(nextId++, ...)` and pushes it.
There is no duplicate-email check here. -/
def Store.create (st : Store) (email password name : String) (now : Nat) : User × Store :=
  let u := User.new st.nextId (some email) (some password) (some name) now
  (u, { users := st.users ++ [u], nextId := st.nextId + 1 })

/-- The per-user mutation of `UserModel.trackLoginAttempt`: on success reset the
counters; on failure increment `loginAttempts`, stamp `lastLoginAttempt`, and
set `isLocked` once the count reaches 3. -/
def applyAttempt (u : User) (success : Bool) (now : Nat) : User :=
  if success then
    { u with loginAttempts := 0, isLocked := false, lastLoginAttempt := some now }
  else
    let u' := { u with loginAttempts := u.loginAttempts + 1, lastLoginAttempt := some now }
    if 3 ≤ u'.loginAttempts then { u' with isLocked := true } else u'

/-- `UserModel.trackLoginAttempt`: find the user by email; if absent and the
attempt failed, push a placeholder `new User(nextId++, email, null, null, now)`
and mutate it; if absent and the attempt succeeded, return null.  The found (or
freshly pushed) user is mutated by `applyAttempt`. -/
def trackLoginAttempt (st : Store) (email : String) (success : Bool) (now : Nat) :
    Option User × Store :=
  let r := updateFirst (fun u => u.email == some email) (fun u => applyAttempt u success now) st.users
  match r.1 with
  | some u' => (some u', { st with users := r.2 })
  | none =>
    if success then (none, st)
    else
      let u' := applyAttempt (User.new st.nextId (some email) none none now) false now
      (some u', { users := st.users ++ [u'], nextId := st.nextId + 1 })

/-- `UserModel.isAccountLocked(email)` with the configured `lockoutDuration`
(2000 ms under NODE_ENV=test, 15 minutes otherwise) as a parameter `dur`.
Returns the boolean answer and the (possibly auto-unlocked) store.  Note the
early `if (user.isLocked) return true;`: a user whose `isLocked` flag is set is
reported locked without any expiry check, so the auto-unlock branch below is
only reachable when `isLocked` is false. -/
def isAccountLocked (dur : Nat) (st : Store) (email : String) (now : Nat) : Bool × Store :=
  match st.users.find? (fun u => u.email == some email) with
  | none => (false, st)
  | some u =>
    if u.isLocked then (true, st)
    else
      match u.lastLoginAttempt with
      | some last =>
        let timeSince : Int := (now : Int) - (last : Int)
        if 3 ≤ u.loginAttempts ∧ timeSince < (dur : Int) then (true, st)
        else if (dur : Int) ≤ timeSince then
          let r := updateFirst (fun v => v.email == some email)
            (fun v => { v with loginAttempts := 0, isLocked := false }) st.users
          (false, { st with users := r.2 })
        else (false, st)
      | none => (false, st)

/-- `UserModel.generatePasswordResetToken` with the random token value `tok`
and the configured TTL (10 s test / 1 h production) as parameters. -/
def generatePasswordResetToken (ttl : Nat) (st : Store) (email tok : String) (now : Nat) :
    Option User × Store :=
  let r := updateFirst (fun u => u.email == some email)
    (fun u => { u with passwordResetToken := some tok, passwordResetExpires := some (now + ttl) })
    st.users
  match r.1 with
  | some u' => (some u', { st with users := r.2 })
  | none => (none, st)

/-- `UserModel.verifyPasswordResetToken`: valid iff the user exists, the token
matches exactly, and `new Date() > new Date(user.passwordResetExpires)` is
false.  `new Date(null)` is epoch 0, hence the `getD 0`. -/
def verifyPasswordResetToken (st : Store) (email tok : String) (now : Nat) : Option User :=
  match st.users.find? (fun u => u.email == some email) with
  | none => none
  | some u =>
    if u.passwordResetToken ≠ some tok then none
    else if u.passwordResetExpires.getD 0 < now then none
    else some u

/-- The mutation performed by a successful `UserModel.resetPassword`: new
password, reset token cleared, counters and lock cleared. -/
def resetApply (u : User) (newPassword : String) : User :=
  { u with
      password := some newPassword
      passwordResetToken := none
      passwordResetExpires := none
      loginAttempts := 0
      isLocked := false }

/-- `UserModel.resetPassword(email, token, newPassword)`: re-validates like
`verifyPasswordResetToken` and, only on success, applies `resetApply` to the
record. -/
def resetPassword (st : Store) (email tok newPassword : String) (now : Nat) :
    Option User × Store :=
  match st.users.find? (fun u => u.email == some email) with
  | none => (none, st)
  | some u =>
    if u.passwordResetToken ≠ some tok then (none, st)
    else if u.passwordResetExpires.getD 0 < now then (none, st)
    else
      let r := updateFirst (fun v => v.email == some email) (fun v => resetApply v newPassword) st.users
      (r.1, { st with users := r.2 })

/-- `UserModel.update(id, { name, email })` as invoked by
`AuthController.updateProfile`.  The JavaScript object spread
`{ ...user, ...updateData }` copies the keys `name` and `email` even when their
values are `undefined`, so both fields are overwritten unconditionally. -/
def updateNameEmail (st : Store) (id : Nat) (nameVal emailVal : Option String) :
    Option User × Store :=
  let r := updateFirst (fun u => u.id == id) (fun u => { u with name := nameVal, email := emailVal }) st.users
  match r.1 with
  | some u' => (some u', { st with users := r.2 })
  | none => (none, st)

/-- `UserModel.update(id, { password })` as invoked by
`AuthController.changePassword`: only the password key is present. -/
def updatePassword (st : Store) (id : Nat) (pw : String) : Option User × Store :=
  let r := updateFirst (fun u => u.id == id) (fun u => { u with password := some pw }) st.users
  match r.1 with
  | some u' => (some u', { st with users := r.2 })
  | none => (none, st)

/-- Characters matched by JavaScript regex `\s`. -/
def jsWhitespace (c : Char) : Bool :=
  c.val == 9 || c.val == 10 || c.val == 11 || c.val == 12 || c.val == 13 || c.val == 32 ||
  c.val == 0xa0 || c.val == 0x1680 || (0x2000 ≤ c.val && c.val ≤ 0x200a) ||
  c.val == 0x2028 || c.val == 0x2029 || c.val == 0x202f || c.val == 0x205f ||
  c.val == 0x3000 || c.val == 0xfeff

/-- The email check of `AuthController.updateProfile`:
`/^[^\s@]+@[^\s@]+\.[^\s@]+$/.test(email)`.  A string matches iff it contains
exactly one `@`, the part before it is nonempty without whitespace, and the
domain part is free of whitespace and further `@` and has a dot that is
neither its first nor its last character. -/
def validEmail (s : String) : Bool :=
  let cs := s.toList
  let localPart := cs.takeWhile (fun c => !(c == '@'))
  let rest := cs.dropWhile (fun c => !(c == '@'))
  match rest with
  | '@' :: domain =>
    !domain.contains '@' &&
    !localPart.isEmpty && localPart.all (fun c => !jsWhitespace c) &&
    domain.all (fun c => !jsWhitespace c) &&
    ((domain.drop 1).dropLast.contains '.')
  | _ => false

/-- Outcome of `AuthController.login`, one constructor per HTTP response shape:
423 locked, 401 invalid credentials (with the remaining-attempts count from the
message, absent for the unknown-email response), or 200 with the account. -/
inductive LoginOutcome where
  | lockedOut : LoginOutcome
  | invalidCredentials : Option Int → LoginOutcome
  | authenticated : User → LoginOutcome
deriving Repr, DecidableEq

/-- Outcome of `AuthController.register`. -/
inductive RegisterOutcome where
  | conflict : RegisterOutcome
  | created : User → RegisterOutcome
deriving Repr, DecidableEq

/-- Outcome of `AuthController.resetPassword` (the complete-reset endpoint). -/
inductive ResetOutcome where
  | invalidToken : ResetOutcome
  | resetFailed : ResetOutcome
  | resetOk : ResetOutcome
deriving Repr, DecidableEq

/-- Outcome of `AuthController.updateProfile`. -/
inductive UpdateOutcome where
  | invalidEmail : UpdateOutcome
  | invalidName : UpdateOutcome
  | emailTaken : UpdateOutcome
  | notFound : UpdateOutcome
  | updated : User → UpdateOutcome
deriving Repr, DecidableEq

/-- The response bodies omit the password: `const { password: _, ...rest }`. -/
def stripPassword (u : User) : User := { u with password := none }

/-- `AuthController.register`: reject with 409 when `findByEmail` already finds
the email, otherwise create the user with the hashed password.  `hash` stands
for `bcrypt.hash`. -/
def register (hash : String → String) (st : Store) (email pw name : String) (now : Nat) :
    RegisterOutcome × Store :=
  match findByEmail st email with
  | some _ => (.conflict, st)
  | none =>
    let r := Store.create st email (hash pw) name now
    (.created (stripPassword r.1), r.2)

/-- `AuthController.login`: check `isAccountLocked` first (423 if locked); then
look up the user (track a failed attempt and answer 401 if absent); then
compute `user.password ? bcrypt.compare(password, user.password) : false`,
track the attempt, and answer 200, 401 with `3 - loginAttempts` remaining, or
423 when no attempts remain.  `verify` stands for `bcrypt.compare`. -/
def login (dur : Nat) (verify : String → String → Bool) (st : Store) (email pw : String)
    (now : Nat) : LoginOutcome × Store :=
  let c := isAccountLocked dur st email now
  if c.1 then (.lockedOut, c.2)
  else
    match findByEmail c.2 email with
    | none =>
      let t := trackLoginAttempt c.2 email false now
      (.invalidCredentials none, t.2)
    | some u =>
      let ok := match u.password with
        | some d => verify pw d
        | none => false
      let t := trackLoginAttempt c.2 email ok now
      if ok then (.authenticated (stripPassword u), t.2)
      else
        match findByEmail t.2 email with
        | some u' =>
          let remaining : Int := 3 - (u'.loginAttempts : Int)
          if 0 < remaining then (.invalidCredentials (some remaining), t.2)
          else (.lockedOut, t.2)
        | none =>
          -- unreachable: the user just tracked is still present
          (.invalidCredentials none, t.2)

/-- `AuthController.requestPasswordReset`: both branches answer 200 with a
generic message; only a known email gets a token generated. -/
def requestPasswordReset (ttl : Nat) (st : Store) (email tok : String) (now : Nat) : Store :=
  match findByEmail st email with
  | none => st
  | some _ => (generatePasswordResetToken ttl st email tok now).2

/-- `AuthController.resetPassword`: verify the token (400 if invalid or
expired), then hash the new password and call `UserModel.resetPassword`. -/
def completeReset (hash : String → String) (st : Store) (email tok newPw : String)
    (now : Nat) : ResetOutcome × Store :=
  match verifyPasswordResetToken st email tok now with
  | none => (.invalidToken, st)
  | some _ =>
    let r := resetPassword st email tok (hash newPw) now
    match r.1 with
    | none => (.resetFailed, r.2)
    | some _ => (.resetOk, r.2)

/-- `AuthController.updateProfile`: validate the email format and name length
when those fields are truthy (JavaScript: an omitted field is `undefined` and
the empty string is also falsy), check email uniqueness against other ids, and
finally call `UserModel.update(userId, { name, email })`. -/
def updateProfile (st : Store) (userId : Nat) (nameVal emailVal : Option String) :
    UpdateOutcome × Store :=
  let emailTruthy := match emailVal with
    | some e => e ≠ ""
    | none => false
  let badEmail := match emailVal with
    | some e => e ≠ "" && !validEmail e
    | none => false
  let badName := match nameVal with
    | some n => n ≠ "" && (n.length < 2 || 50 < n.length)
    | none => false
  let taken := emailTruthy && (match emailVal with
    | some e =>
      match findByEmail st e with
      | some existing => existing.id != userId
      | none => false
    | none => false)
  if badEmail then (.invalidEmail, st)
  else if badName then (.invalidName, st)
  else if taken then (.emailTaken, st)
  else
    let r := updateNameEmail st userId nameVal emailVal
    match r.1 with
    | none => (.notFound, st)
    | some u' => (.updated (stripPassword u'), r.2)

/-- `AuthController.changePassword`: verify the current password, require the
new password to differ, then call `UserModel.update(userId, { password })`.
`bcrypt.compare` against a null stored password is modelled as false. -/
def changePassword (hash : String → String) (verify : String → String → Bool) (st : Store)
    (userId : Nat) (currentPw newPw : String) : Store :=
  match findById st userId with
  | none => st
  | some u =>
    let curOk := match u.password with
      | some d => verify currentPw d
      | none => false
    let sameOk := match u.password with
      | some d => verify newPw d
      | none => false
    if !curOk then st
    else if sameOk then st
    else (updatePassword st userId (hash newPw)).2

/-- Store states reachable from the empty store through the controller
endpoints, each invoked at an arbitrary time and with arbitrary external
capabilities (hashing, password comparison, random token). -/
inductive ReachableC : Store → Prop where
  | init : ReachableC Store.empty
  | register (hash : String → String) (email pw name : String) (now : Nat) {st : Store} :
      ReachableC st → ReachableC (LoginApi.register hash st email pw name now).2
  | login (dur : Nat) (verify : String → String → Bool) (email pw : String) (now : Nat)
      {st : Store} :
      ReachableC st → ReachableC (LoginApi.login dur verify st email pw now).2
  | requestReset (ttl : Nat) (email tok : String) (now : Nat) {st : Store} :
      ReachableC st → ReachableC (requestPasswordReset ttl st email tok now)
  | completeReset (hash : String → String) (email tok newPw : String) (now : Nat)
      {st : Store} :
      ReachableC st → ReachableC (LoginApi.completeReset hash st email tok newPw now).2
  | updateProfile (userId : Nat) (nameVal emailVal : Option String) {st : Store} :
      ReachableC st → ReachableC (LoginApi.updateProfile st userId nameVal emailVal).2
  | changePassword (hash : String → String) (verify : String → String → Bool)
      (userId : Nat) (currentPw newPw : String) {st : Store} :
      ReachableC st → ReachableC (LoginApi.changePassword hash verify st userId currentPw newPw)

/-- Store states reachable through the controller endpoints or through direct
invocations of the model-layer operations (attempt tracking, the lock check
with its implicit unlock, token generation, password reset, record creation). -/
inductive Reachable : Store → Prop where
  | init : Reachable Store.empty
  | register (hash : String → String) (email pw name : String) (now : Nat) {st : Store} :
      Reachable st → Reachable (LoginApi.register hash st email pw name now).2
  | login (dur : Nat) (verify : String → String → Bool) (email pw : String) (now : Nat)
      {st : Store} :
      Reachable st → Reachable (LoginApi.login dur verify st email pw now).2
  | requestReset (ttl : Nat) (email tok : String) (now : Nat) {st : Store} :
      Reachable st → Reachable (requestPasswordReset ttl st email tok now)
  | completeReset (hash : String → String) (email tok newPw : String) (now : Nat)
      {st : Store} :
      Reachable st → Reachable (LoginApi.completeReset hash st email tok newPw now).2
  | updateProfile (userId : Nat) (nameVal emailVal : Option String) {st : Store} :
      Reachable st → Reachable (LoginApi.updateProfile st userId nameVal emailVal).2
  | changePassword (hash : String → String) (verify : String → String → Bool)
      (userId : Nat) (currentPw newPw : String) {st : Store} :
      Reachable st → Reachable (LoginApi.changePassword hash verify st userId currentPw newPw)
  | create (email password name : String) (now : Nat) {st : Store} :
      Reachable st → Reachable (Store.create st email password name now).2
  | track (email : String) (success : Bool) (now : Nat) {st : Store} :
      Reachable st → Reachable (trackLoginAttempt st email success now).2
  | lockCheck (dur : Nat) (email : String) (now : Nat) {st : Store} :
      Reachable st → Reachable (isAccountLocked dur st email now).2
  | genToken (ttl : Nat) (email tok : String) (now : Nat) {st : Store} :
      Reachable st → Reachable (generatePasswordResetToken ttl st email tok now).2
  | resetPw (email tok newPw : String) (now : Nat) {st : Store} :
      Reachable st → Reachable (resetPassword st email tok newPw now).2

/-- Per-user part of the C8 invariant: a locked record has reached the
threshold of 3 failed attempts. -/
def lockOk (u : User) : Prop := u.isLocked = true → 3 ≤ u.loginAttempts

/-- Per-user part of the C10 invariant: the failed-attempt counter never
exceeds the threshold, and a nonzero counter comes with a recorded last
attempt (needed because the lock check consults `lastLoginAttempt`). -/
def cntOk (u : User) : Prop :=
  u.loginAttempts ≤ 3 ∧ (u.loginAttempts ≠ 0 → u.lastLoginAttempt ≠ none)

/- ## Basic lemmas about `updateFirst` -/

theorem updateFirst_of_find?_none {p : User → Bool} {f : User → User} {l : List User}
    (h : l.find? p = none) : updateFirst p f l = (none, l) := by
  induction l with
  | nil => rfl
  | cons a l ih =>
    cases hpa : p a with
    | true => rw [List.find?_cons_of_pos _ hpa] at h; exact absurd h (by simp)
    | false =>
      rw [List.find?_cons_of_neg _ (by simp [hpa])] at h
      simp [updateFirst, hpa, ih h]

theorem updateFirst_fst {p : User → Bool} {f : User → User} {l : List User} {v : User}
    (h : l.find? p = some v) : (updateFirst p f l).1 = some (f v) := by
  induction l with
  | nil => simp at h
  | cons a l ih =>
    cases hpa : p a with
    | true =>
      rw [List.find?_cons_of_pos _ hpa] at h
      cases h
      simp [updateFirst, hpa]
    | false =>
      rw [List.find?_cons_of_neg _ (by simp [hpa])] at h
      simp [updateFirst, hpa, ih h]

theorem updateFirst_snd_find? {p : User → Bool} {f : User → User} {l : List User} {v : User}
    (h : l.find? p = some v) (hp : p (f v) = true) :
    ((updateFirst p f l).2).find? p = some (f v) := by
  induction l with
  | nil => simp at h
  | cons a l ih =>
    cases hpa : p a with
    | true =>
      rw [List.find?_cons_of_pos _ hpa] at h
      cases h
      simp [updateFirst, hpa, List.find?_cons_of_pos _ hp]
    | false =>
      rw [List.find?_cons_of_neg _ (by simp [hpa])] at h
      simp [updateFirst, hpa, List.find?_cons_of_neg _ (by simp [hpa] : ¬ p a = true), ih h]

theorem updateFirst_mem {p : User → Bool} {f : User → User} {l : List User} {u : User}
    (h : u ∈ (updateFirst p f l).2) : u ∈ l ∨ ∃ v, v ∈ l ∧ u = f v := by
  induction l with
  | nil => simp [updateFirst] at h
  | cons a l ih =>
    cases hpa : p a with
    | true =>
      simp [updateFirst, hpa] at h
      rcases h with h | h
      · exact Or.inr ⟨a, by simp, h⟩
      · exact Or.inl (List.mem_cons_of_mem _ h)
    | false =>
      simp [updateFirst, hpa] at h
      rcases h with h | h
      · exact Or.inl (by simp [h])
      · rcases ih h with h' | ⟨v, hv, hu⟩
        · exact Or.inl (List.mem_cons_of_mem _ h')
        · exact Or.inr ⟨v, List.mem_cons_of_mem _ hv, hu⟩

theorem updateFirst_mem_find {p : User → Bool} {f : User → User} {l : List User} {u : User}
    (h : u ∈ (updateFirst p f l).2) : u ∈ l ∨ ∃ v, l.find? p = some v ∧ u = f v := by
  induction l with
  | nil => simp [updateFirst] at h
  | cons a l ih =>
    cases hpa : p a with
    | true =>
      simp [updateFirst, hpa] at h
      rcases h with h | h
      · exact Or.inr ⟨a, List.find?_cons_of_pos _ hpa, h⟩
      · exact Or.inl (List.mem_cons_of_mem _ h)
    | false =>
      simp [updateFirst, hpa] at h
      rcases h with h | h
      · exact Or.inl (by simp [h])
      · rcases ih h with h' | ⟨v, hv, hu⟩
        · exact Or.inl (List.mem_cons_of_mem _ h')
        · exact Or.inr ⟨v, by rw [List.find?_cons_of_neg _ (by simp [hpa])]; exact hv, hu⟩

theorem updateFirst_self {p : User → Bool} {f : User → User} {l : List User}
    (h : ∀ v, l.find? p = some v → f v = v) : (updateFirst p f l).2 = l := by
  induction l with
  | nil => rfl
  | cons a l ih =>
    cases hpa : p a with
    | true =>
      have ha := h a (List.find?_cons_of_pos _ hpa)
      simp [updateFirst, hpa, ha]
    | false =>
      have h' : ∀ v, l.find? p = some v → f v = v := by
        intro v hv
        exact h v (by rw [List.find?_cons_of_neg _ (by simp [hpa])]; exact hv)
      simp [updateFirst, hpa, ih h']

/- ## Field lemmas about `applyAttempt` -/

theorem applyAttempt_email (u : User) (s : Bool) (now : Nat) :
    (applyAttempt u s now).email = u.email := by
  cases s
  · simp only [applyAttempt, Bool.false_eq_true, if_false]
    split <;> rfl
  · rfl

theorem applyAttempt_password (u : User) (s : Bool) (now : Nat) :
    (applyAttempt u s now).password = u.password := by
  cases s
  · simp only [applyAttempt, Bool.false_eq_true, if_false]
    split <;> rfl
  · rfl

theorem applyAttempt_fail_loginAttempts (u : User) (now : Nat) :
    (applyAttempt u false now).loginAttempts = u.loginAttempts + 1 := by
  simp [applyAttempt]; split <;> rfl

theorem applyAttempt_fail_last (u : User) (now : Nat) :
    (applyAttempt u false now).lastLoginAttempt = some now := by
  simp [applyAttempt]; split <;> rfl

theorem applyAttempt_fail_isLocked_lt (u : User) (now : Nat) (h : u.loginAttempts + 1 < 3) :
    (applyAttempt u false now).isLocked = u.isLocked := by
  simp only [applyAttempt, Bool.false_eq_true, if_false]
  rw [if_neg (by omega)]

theorem applyAttempt_fail_isLocked_ge (u : User) (now : Nat) (h : 3 ≤ u.loginAttempts + 1) :
    (applyAttempt u false now).isLocked = true := by
  simp only [applyAttempt, Bool.false_eq_true, if_false]
  rw [if_pos (by omega)]

/- ## Behaviour of `isAccountLocked` -/

theorem lockCheck_absent {st : Store} {e : String} (dur now : Nat)
    (h : findByEmail st e = none) : isAccountLocked dur st e now = (false, st) := by
  unfold findByEmail at h
  unfold isAccountLocked
  rw [h]

theorem lockCheck_locked {st : Store} {e : String} {u : User} (dur now : Nat)
    (hfind : findByEmail st e = some u) (hl : u.isLocked = true) :
    isAccountLocked dur st e now = (true, st) := by
  unfold findByEmail at hfind
  unfold isAccountLocked
  rw [hfind]
  simp [hl]

theorem lockCheck_fresh {st : Store} {e : String} {u : User} (dur now : Nat)
    (hfind : findByEmail st e = some u) (hl : u.isLocked = false)
    (h0 : u.loginAttempts = 0) : isAccountLocked dur st e now = (false, st) := by
  unfold findByEmail at hfind
  unfold isAccountLocked
  rw [hfind]
  simp only [hl, Bool.false_eq_true, if_false]
  cases hla : u.lastLoginAttempt with
  | none => rfl
  | some t =>
    dsimp only
    rw [if_neg (by rw [h0]; omega)]
    by_cases hd : (dur : Int) ≤ (now : Int) - (t : Int)
    · rw [if_pos hd]
      have hself : (updateFirst (fun v => v.email == some e)
          (fun v => { v with loginAttempts := 0, isLocked := false }) st.users).2 = st.users := by
        apply updateFirst_self
        intro v hv
        rw [hfind] at hv
        cases hv
        cases u
        simp_all
      rw [hself]
    · rw [if_neg hd]

theorem lockCheck_within {st : Store} {e : String} {u : User} {t0 : Nat} (dur now : Nat)
    (hfind : findByEmail st e = some u) (hl : u.isLocked = false)
    (hcnt : u.loginAttempts < 3) (hlast : u.lastLoginAttempt = some t0)
    (hts : (now : Int) - (t0 : Int) < (dur : Int)) :
    isAccountLocked dur st e now = (false, st) := by
  unfold findByEmail at hfind
  unfold isAccountLocked
  rw [hfind]
  simp only [hl, Bool.false_eq_true, if_false, hlast]
  rw [if_neg (by omega)]
  rw [if_neg (by omega)]

/- ## Behaviour of `trackLoginAttempt` -/

theorem track_found {st : Store} {e : String} {u : User} (success : Bool) (now : Nat)
    (hfind : findByEmail st e = some u) :
    trackLoginAttempt st e success now =
      (some (applyAttempt u success now),
       { st with users := (updateFirst (fun v => v.email == some e)
           (fun v => applyAttempt v success now) st.users).2 }) := by
  unfold findByEmail at hfind
  have h1 := updateFirst_fst (f := fun v => applyAttempt v success now) hfind
  simp [trackLoginAttempt, h1]

theorem track_absent {st : Store} {e : String} (now : Nat)
    (hfind : findByEmail st e = none) :
    trackLoginAttempt st e false now =
      (some (applyAttempt (User.new st.nextId (some e) none none now) false now),
       { users := st.users ++ [applyAttempt (User.new st.nextId (some e) none none now) false now],
         nextId := st.nextId + 1 }) := by
  unfold findByEmail at hfind
  have h1 := updateFirst_of_find?_none (f := fun v => applyAttempt v false now) hfind
  simp [trackLoginAttempt, h1]

theorem findByEmail_after_track {st : Store} {e : String} {u : User} (success : Bool) (now : Nat)
    (hfind : findByEmail st e = some u) :
    findByEmail (trackLoginAttempt st e success now).2 e =
      some (applyAttempt u success now) := by
  rw [track_found success now hfind]
  unfold findByEmail at hfind ⊢
  exact updateFirst_snd_find? hfind
    (by simpa [applyAttempt_email] using List.find?_some hfind)

/- ## Behaviour of `login` -/

theorem login_of_lockCheck_true {st st' : Store} {e : String} (dur : Nat)
    (verify : String → String → Bool) (pw : String) (now : Nat)
    (h : isAccountLocked dur st e now = (true, st')) :
    login dur verify st e pw now = (.lockedOut, st') := by
  simp [login, h]

theorem login_fail_low {st : Store} {e pw d : String} {u : User} (dur : Nat)
    (verify : String → String → Bool) (now : Nat)
    (hlock : isAccountLocked dur st e now = (false, st))
    (hfind : findByEmail st e = some u)
    (hd : u.password = some d) (hv : verify pw d = false)
    (hc : u.loginAttempts + 1 < 3) :
    login dur verify st e pw now =
      (.invalidCredentials (some (3 - ((u.loginAttempts + 1 : Nat) : Int))),
       (trackLoginAttempt st e false now).2) ∧
    findByEmail (trackLoginAttempt st e false now).2 e = some (applyAttempt u false now) := by
  have hrefetch := findByEmail_after_track false now hfind
  constructor
  · simp only [login, hlock]
    rw [hfind]
    simp only [hd, hv]
    rw [hrefetch]
    dsimp only
    rw [applyAttempt_fail_loginAttempts]
    simp only [Bool.false_eq_true, if_false]
    rw [if_pos (show (0:Int) < 3 - ((u.loginAttempts + 1 : Nat) : Int) by push_cast; omega)]
  · exact hrefetch

theorem login_fail_high {st : Store} {e pw d : String} {u : User} (dur : Nat)
    (verify : String → String → Bool) (now : Nat)
    (hlock : isAccountLocked dur st e now = (false, st))
    (hfind : findByEmail st e = some u)
    (hd : u.password = some d) (hv : verify pw d = false)
    (hc : 3 ≤ u.loginAttempts + 1) :
    login dur verify st e pw now = (.lockedOut, (trackLoginAttempt st e false now).2) ∧
    findByEmail (trackLoginAttempt st e false now).2 e = some (applyAttempt u false now) := by
  have hrefetch := findByEmail_after_track false now hfind
  constructor
  · simp only [login, hlock]
    rw [hfind]
    simp only [hd, hv]
    rw [hrefetch]
    dsimp only
    rw [applyAttempt_fail_loginAttempts]
    simp only [Bool.false_eq_true, if_false]
    rw [if_neg (show ¬ (0:Int) < 3 - ((u.loginAttempts + 1 : Nat) : Int) by push_cast; omega)]
  · exact hrefetch

theorem login_fail_low_nopw {st : Store} {e pw : String} {u : User} (dur : Nat)
    (verify : String → String → Bool) (now : Nat)
    (hlock : isAccountLocked dur st e now = (false, st))
    (hfind : findByEmail st e = some u)
    (hd : u.password = none)
    (hc : u.loginAttempts + 1 < 3) :
    login dur verify st e pw now =
      (.invalidCredentials (some (3 - ((u.loginAttempts + 1 : Nat) : Int))),
       (trackLoginAttempt st e false now).2) ∧
    findByEmail (trackLoginAttempt st e false now).2 e = some (applyAttempt u false now) := by
  have hrefetch := findByEmail_after_track false now hfind
  constructor
  · simp only [login, hlock]
    rw [hfind]
    simp only [hd]
    rw [hrefetch]
    dsimp only
    rw [applyAttempt_fail_loginAttempts]
    simp only [Bool.false_eq_true, if_false]
    rw [if_pos (show (0:Int) < 3 - ((u.loginAttempts + 1 : Nat) : Int) by push_cast; omega)]
  · exact hrefetch

theorem login_fail_high_nopw {st : Store} {e pw : String} {u : User} (dur : Nat)
    (verify : String → String → Bool) (now : Nat)
    (hlock : isAccountLocked dur st e now = (false, st))
    (hfind : findByEmail st e = some u)
    (hd : u.password = none)
    (hc : 3 ≤ u.loginAttempts + 1) :
    login dur verify st e pw now = (.lockedOut, (trackLoginAttempt st e false now).2) ∧
    findByEmail (trackLoginAttempt st e false now).2 e = some (applyAttempt u false now) := by
  have hrefetch := findByEmail_after_track false now hfind
  constructor
  · simp only [login, hlock]
    rw [hfind]
    simp only [hd]
    rw [hrefetch]
    dsimp only
    rw [applyAttempt_fail_loginAttempts]
    simp only [Bool.false_eq_true, if_false]
    rw [if_neg (show ¬ (0:Int) < 3 - ((u.loginAttempts + 1 : Nat) : Int) by push_cast; omega)]
  · exact hrefetch

theorem login_absent {st : Store} {e : String} (dur : Nat)
    (verify : String → String → Bool) (pw : String) (now : Nat)
    (habs : findByEmail st e = none) :
    login dur verify st e pw now =
      (.invalidCredentials none, (trackLoginAttempt st e false now).2) := by
  simp only [login, lockCheck_absent dur now habs]
  rw [habs]
  rfl

theorem findByEmail_append {st : Store} {e : String} {u' : User} {n : Nat}
    (habs : findByEmail st e = none) (hp : u'.email = some e) :
    findByEmail { users := st.users ++ [u'], nextId := n } e = some u' := by
  unfold findByEmail at habs ⊢
  dsimp only
  rw [List.find?_append, habs]
  simp [hp]

theorem lockCheck_find_preserve {st : Store} {e : String} {u : User} (dur now : Nat)
    (hfind : findByEmail st e = some u) :
    ∃ u2, findByEmail (isAccountLocked dur st e now).2 e = some u2 ∧
      u2.password = u.password := by
  have hfind0 := hfind
  unfold findByEmail at hfind0
  unfold isAccountLocked
  rw [hfind0]
  dsimp only
  by_cases hl : u.isLocked = true
  · rw [if_pos hl]
    exact ⟨u, hfind, rfl⟩
  · rw [if_neg hl]
    cases hla : u.lastLoginAttempt with
    | none => exact ⟨u, hfind, rfl⟩
    | some t =>
      dsimp only
      by_cases h1 : 3 ≤ u.loginAttempts ∧ (now : Int) - (t : Int) < (dur : Int)
      · rw [if_pos h1]
        exact ⟨u, hfind, rfl⟩
      · rw [if_neg h1]
        by_cases h2 : (dur : Int) ≤ (now : Int) - (t : Int)
        · rw [if_pos h2]
          refine ⟨{ u with loginAttempts := 0, isLocked := false }, ?_, rfl⟩
          unfold findByEmail
          exact updateFirst_snd_find? hfind0 (by simpa using List.find?_some hfind0)
        · rw [if_neg h2]
          exact ⟨u, hfind, rfl⟩

/- ## Claim theorems -/

/-- C2: starting from a registered account with `failedAttemptCount` 0, three
consecutive failed attempts within the lockout window yield
`InvalidCredentials` (2 remaining), `InvalidCredentials` (1 remaining), then
`LockedOut` — the attempt that brings the count to 3 is itself reported as a
lockout — and a further attempt before the window expires is `LockedOut` even
with the correct password. -/
theorem c2_three_failures_then_lockout
    (dur : Nat) (verify : String → String → Bool) (st : Store)
    (e pw1 pw2 pw3 pw4 d : String) (t1 t2 t3 t4 : Nat) (u : User)
    (hfind : findByEmail st e = some u)
    (hcnt : u.loginAttempts = 0) (hl : u.isLocked = false)
    (hd : u.password = some d)
    (hv1 : verify pw1 d = false) (hv2 : verify pw2 d = false) (hv3 : verify pw3 d = false)
    (hv4 : verify pw4 d = true)
    (h12 : (t2 : Int) - (t1 : Int) < (dur : Int))
    (h23 : (t3 : Int) - (t2 : Int) < (dur : Int))
    (h34 : (t4 : Int) - (t3 : Int) < (dur : Int)) :
    (login dur verify st e pw1 t1).1 = .invalidCredentials (some 2) ∧
    (login dur verify (login dur verify st e pw1 t1).2 e pw2 t2).1 =
      .invalidCredentials (some 1) ∧
    (login dur verify (login dur verify (login dur verify st e pw1 t1).2 e pw2 t2).2
      e pw3 t3).1 = .lockedOut ∧
    (login dur verify (login dur verify (login dur verify (login dur verify st e pw1 t1).2
      e pw2 t2).2 e pw3 t3).2 e pw4 t4).1 = .lockedOut := by
  have hlock1 := lockCheck_fresh dur t1 hfind hl hcnt
  obtain ⟨he1, hf1⟩ := login_fail_low dur verify t1 hlock1 hfind hd hv1 (by omega)
  have hc1 : (applyAttempt u false t1).loginAttempts = 1 := by
    rw [applyAttempt_fail_loginAttempts, hcnt]
  have hl1 : (applyAttempt u false t1).isLocked = false := by
    rw [applyAttempt_fail_isLocked_lt u t1 (by omega)]; exact hl
  have hd1 : (applyAttempt u false t1).password = some d := by
    rw [applyAttempt_password]; exact hd
  have hlock2 := lockCheck_within dur t2 hf1 hl1 (by omega) (applyAttempt_fail_last u t1) h12
  obtain ⟨he2, hf2⟩ := login_fail_low dur verify t2 hlock2 hf1 hd1 hv2 (by omega)
  have hc2 : (applyAttempt (applyAttempt u false t1) false t2).loginAttempts = 2 := by
    rw [applyAttempt_fail_loginAttempts, hc1]
  have hl2 : (applyAttempt (applyAttempt u false t1) false t2).isLocked = false := by
    rw [applyAttempt_fail_isLocked_lt _ t2 (by omega)]; exact hl1
  have hd2 : (applyAttempt (applyAttempt u false t1) false t2).password = some d := by
    rw [applyAttempt_password]; exact hd1
  have hlock3 := lockCheck_within dur t3 hf2 hl2 (by omega) (applyAttempt_fail_last _ t2) h23
  obtain ⟨he3, hf3⟩ := login_fail_high dur verify t3 hlock3 hf2 hd2 hv3 (by omega)
  have hl3 : (applyAttempt (applyAttempt (applyAttempt u false t1) false t2) false t3).isLocked
      = true := applyAttempt_fail_isLocked_ge _ t3 (by omega)
  have hlock4 := lockCheck_locked dur t4 hf3 hl3
  have he4 := login_of_lockCheck_true dur verify pw4 t4 hlock4
  refine ⟨?_, ?_, ?_, ?_⟩
  · rw [he1, hcnt]; norm_num
  · simp only [he1]; rw [he2, hc1]; norm_num
  · simp only [he1, he2]; rw [he3]
  · simp only [he1, he2, he3]; rw [he4]

/-- Witness for C2 at a concrete store, duration 2000 and attempt times
10, 20, 30, 40. -/
theorem c2_witness :
    (login 2000 (fun p h => p == "right" && h == "dg")
      { users := [⟨1, some "a", some "dg", some "A", 0, 0, none, false, none, none⟩],
        nextId := 2 } "a" "w" 10).1 = .invalidCredentials (some 2) ∧
    (login 2000 (fun p h => p == "right" && h == "dg")
      (login 2000 (fun p h => p == "right" && h == "dg")
        { users := [⟨1, some "a", some "dg", some "A", 0, 0, none, false, none, none⟩],
          nextId := 2 } "a" "w" 10).2 "a" "w" 20).1 = .invalidCredentials (some 1) ∧
    (login 2000 (fun p h => p == "right" && h == "dg")
      (login 2000 (fun p h => p == "right" && h == "dg")
        (login 2000 (fun p h => p == "right" && h == "dg")
          { users := [⟨1, some "a", some "dg", some "A", 0, 0, none, false, none, none⟩],
            nextId := 2 } "a" "w" 10).2 "a" "w" 20).2 "a" "w" 30).1 = .lockedOut ∧
    (login 2000 (fun p h => p == "right" && h == "dg")
      (login 2000 (fun p h => p == "right" && h == "dg")
        (login 2000 (fun p h => p == "right" && h == "dg")
          (login 2000 (fun p h => p == "right" && h == "dg")
            { users := [⟨1, some "a", some "dg", some "A", 0, 0, none, false, none, none⟩],
              nextId := 2 } "a" "w" 10).2 "a" "w" 20).2 "a" "w" 30).2 "a" "right" 40).1 =
      .lockedOut :=
  c2_three_failures_then_lockout 2000 (fun p h => p == "right" && h == "dg")
    { users := [⟨1, some "a", some "dg", some "A", 0, 0, none, false, none, none⟩], nextId := 2 }
    "a" "w" "w" "w" "right" "dg" 10 20 30 40
    ⟨1, some "a", some "dg", some "A", 0, 0, none, false, none, none⟩
    (by decide) (by decide) (by decide) (by decide)
    (by decide) (by decide) (by decide) (by decide)
    (by decide) (by decide) (by decide)

/-- C4: a login against an account that is currently locked and whose lockout
window has not expired is rejected as `LockedOut`, no credential verification
is performed (the result does not depend on `verify`), and the store is
entirely unchanged. -/
theorem c4_locked_login_rejected_unchanged
    (dur : Nat) (verify : String → String → Bool) (st : Store) (e pw : String)
    (now t0 : Nat) (u : User)
    (hfind : findByEmail st e = some u) (hl : u.isLocked = true)
    (hlast : u.lastLoginAttempt = some t0)
    (hwin : (now : Int) - (t0 : Int) < (dur : Int)) :
    login dur verify st e pw now = (.lockedOut, st) :=
  login_of_lockCheck_true dur verify pw now (lockCheck_locked dur now hfind hl)

/-- C5: a login against an email with no stored account creates a placeholder
record for that email with a null password, records a failed attempt against
it (count 1), and answers `InvalidCredentials`; repeated attempts against the
same unknown email accumulate on the placeholder and reach the lockout
threshold on the third attempt. -/
theorem c5_unknown_email_placeholder
    (dur : Nat) (verify : String → String → Bool) (st : Store)
    (e pw1 pw2 pw3 : String) (t1 t2 t3 : Nat)
    (habs : findByEmail st e = none)
    (h12 : (t2 : Int) - (t1 : Int) < (dur : Int))
    (h23 : (t3 : Int) - (t2 : Int) < (dur : Int)) :
    (login dur verify st e pw1 t1).1 = .invalidCredentials none ∧
    findByEmail (login dur verify st e pw1 t1).2 e =
      some ⟨st.nextId, some e, none, none, t1, 1, some t1, false, none, none⟩ ∧
    (login dur verify (login dur verify st e pw1 t1).2 e pw2 t2).1 =
      .invalidCredentials (some 1) ∧
    (login dur verify (login dur verify (login dur verify st e pw1 t1).2 e pw2 t2).2
      e pw3 t3).1 = .lockedOut := by
  have he1 := login_absent dur verify pw1 t1 habs
  have htrack := track_absent t1 habs
  have hu1 : applyAttempt (User.new st.nextId (some e) none none t1) false t1 =
      (⟨st.nextId, some e, none, none, t1, 1, some t1, false, none, none⟩ : User) := rfl
  have hf1 : findByEmail (trackLoginAttempt st e false t1).2 e =
      some (⟨st.nextId, some e, none, none, t1, 1, some t1, false, none, none⟩ : User) := by
    rw [htrack]
    dsimp only
    rw [hu1]
    exact findByEmail_append habs rfl
  have hlock2 := lockCheck_within (u := (⟨st.nextId, some e, none, none, t1, 1, some t1,
    false, none, none⟩ : User)) dur t2 hf1 rfl (by norm_num) rfl h12
  obtain ⟨he2, hf2⟩ := login_fail_low_nopw dur verify t2 hlock2 hf1 rfl (by norm_num)
  have hc2 : (applyAttempt (⟨st.nextId, some e, none, none, t1, 1, some t1, false, none,
      none⟩ : User) false t2) =
      (⟨st.nextId, some e, none, none, t1, 2, some t2, false, none, none⟩ : User) := rfl
  rw [hc2] at hf2
  have hlock3 := lockCheck_within (u := (⟨st.nextId, some e, none, none, t1, 2, some t2,
    false, none, none⟩ : User)) dur t3 hf2 rfl (by norm_num) rfl h23
  obtain ⟨he3, hf3⟩ := login_fail_high_nopw dur verify t3 hlock3 hf2 rfl (by norm_num)
  refine ⟨?_, ?_, ?_, ?_⟩
  · rw [he1]
  · rw [he1]; exact hf1
  · simp only [he1]; rw [he2]; norm_num
  · simp only [he1, he2]; rw [he3]

/-- Witness for C5 against the empty store at times 10, 20, 30. -/
theorem c5_witness :
    (login 2000 (fun _ _ => true) Store.empty "ghost" "x" 10).1 =
      .invalidCredentials none ∧
    findByEmail (login 2000 (fun _ _ => true) Store.empty "ghost" "x" 10).2 "ghost" =
      some ⟨1, some "ghost", none, none, 10, 1, some 10, false, none, none⟩ ∧
    (login 2000 (fun _ _ => true)
      (login 2000 (fun _ _ => true) Store.empty "ghost" "x" 10).2 "ghost" "x" 20).1 =
      .invalidCredentials (some 1) ∧
    (login 2000 (fun _ _ => true)
      (login 2000 (fun _ _ => true)
        (login 2000 (fun _ _ => true) Store.empty "ghost" "x" 10).2 "ghost" "x" 20).2
      "ghost" "x" 30).1 = .lockedOut :=
  c5_unknown_email_placeholder 2000 (fun _ _ => true) Store.empty "ghost" "x" "x" "x"
    10 20 30 (by decide) (by decide) (by decide)

/-- C9: a login against an account whose stored password is null (a
placeholder record) is never `Authenticated`: the result does not depend on
the credential-verification capability at all, and the outcome is
`InvalidCredentials` or `LockedOut`. -/
theorem c9_null_password_never_authenticated
    (dur : Nat) (verify verify2 : String → String → Bool) (st : Store) (e pw : String)
    (now : Nat) (u : User)
    (hfind : findByEmail st e = some u) (hpw : u.password = none) :
    (∀ v, (login dur verify st e pw now).1 ≠ .authenticated v) ∧
    login dur verify st e pw now = login dur verify2 st e pw now := by
  obtain ⟨u2, hfind2, hpw2⟩ := lockCheck_find_preserve dur now hfind
  rw [hpw] at hpw2
  cases hacl : isAccountLocked dur st e now with
  | mk b s2 =>
    rw [hacl] at hfind2
    cases b with
    | true =>
      refine ⟨?_, ?_⟩
      · intro v h
        rw [login_of_lockCheck_true dur verify pw now hacl] at h
        exact LoginOutcome.noConfusion h
      · rw [login_of_lockCheck_true dur verify pw now hacl,
          login_of_lockCheck_true dur verify2 pw now hacl]
    | false =>
      refine ⟨?_, ?_⟩
      · intro v
        simp only [login, hacl]
        rw [hfind2]
        simp only [hpw2, Bool.false_eq_true, if_false]
        cases href : findByEmail (trackLoginAttempt s2 e false now).2 e with
        | none => intro h; exact LoginOutcome.noConfusion h
        | some u' =>
          dsimp only
          by_cases hr : (0 : Int) < 3 - (u'.loginAttempts : Int)
          · rw [if_pos hr]; intro h; exact LoginOutcome.noConfusion h
          · rw [if_neg hr]; intro h; exact LoginOutcome.noConfusion h
      · simp only [login, hacl]
        rw [hfind2]
        simp only [hpw2, Bool.false_eq_true, if_false]

/-- Witness for C9 on a store holding a placeholder record. -/
theorem c9_witness :
    (∀ v, (login 2000 (fun _ _ => true)
      { users := [⟨1, some "ghost", none, none, 0, 1, some 0, false, none, none⟩],
        nextId := 2 } "ghost" "x" 5).1 ≠ .authenticated v) ∧
    login 2000 (fun _ _ => true)
      { users := [⟨1, some "ghost", none, none, 0, 1, some 0, false, none, none⟩],
        nextId := 2 } "ghost" "x" 5 =
    login 2000 (fun _ _ => false)
      { users := [⟨1, some "ghost", none, none, 0, 1, some 0, false, none, none⟩],
        nextId := 2 } "ghost" "x" 5 :=
  c9_null_password_never_authenticated 2000 (fun _ _ => true) (fun _ _ => false)
    { users := [⟨1, some "ghost", none, none, 0, 1, some 0, false, none, none⟩], nextId := 2 }
    "ghost" "x" 5
    ⟨1, some "ghost", none, none, 0, 1, some 0, false, none, none⟩
    (by decide) (by decide)

/-- C1 (code evidence): an account whose `isLocked` flag is set is still
rejected as `LockedOut` long after the configured lockout duration has
elapsed, even with the correct password, and its record is not reset: the
early `if (user.isLocked) return true` in `isAccountLocked` precedes the
expiry check, so the auto-unlock branch is unreachable for locked accounts.
Last attempt at time 0, duration 2000, attempt at time 999999. -/
theorem c1_locked_account_never_auto_unlocks :
    login 2000 (fun p h => p == "right" && h == "dg")
      { users := [⟨1, some "a", some "dg", some "A", 0, 3, some 0, true, none, none⟩],
        nextId := 2 } "a" "right" 999999 =
      (.lockedOut,
       { users := [⟨1, some "a", some "dg", some "A", 0, 3, some 0, true, none, none⟩],
         nextId := 2 }) := by
  decide

/-- C6 (code evidence): `updateProfile` with a patch that provides only the
email overwrites the omitted `name` field with `undefined` (modelled as
`none`): the controller always passes both keys to `UserModel.update`, and
the object spread copies the `undefined` value over the stored one.  The
stored name "Alice" is lost; the fields outside the patch are kept. -/
theorem c6_update_profile_clobbers_omitted_name :
    updateProfile
      { users := [⟨1, some "old@x.co", some "dg", some "Alice", 0, 0, none, false, none, none⟩],
        nextId := 2 } 1 none (some "new@x.co") =
      (.updated ⟨1, some "new@x.co", none, none, 0, 0, none, false, none, none⟩,
       { users := [⟨1, some "new@x.co", some "dg", none, 0, 0, none, false, none, none⟩],
         nextId := 2 }) := by
  decide

/-- C7 (counterexample): `UserModel.create` itself performs no uniqueness
check: invoked with an email that is already present it appends a second
record for that email instead of failing with `Conflict`. -/
theorem c7_create_allows_duplicate_email :
    ((Store.create
      { users := [⟨1, some "a", some "dg", some "A", 0, 0, none, false, none, none⟩],
        nextId := 2 } "a" "dg2" "B" 5).2.users.countP (fun u => u.email == some "a")) = 2 := by
  decide

/-- C7 (amended): email uniqueness is enforced by the register endpoint, not
by the store-level create: `register` answers `Conflict` and leaves the store
unchanged whenever `findByEmail` already finds an account for that email, so
no second record is added for it. -/
theorem c7_register_conflict_no_duplicate
    (hash : String → String) (st : Store) (e pw name : String) (now : Nat) (u : User)
    (hfind : findByEmail st e = some u) :
    register hash st e pw name now = (.conflict, st) := by
  unfold register
  rw [hfind]

/-- Witness for the amended C7. -/
theorem c7_witness :
    register (fun s => s)
      { users := [⟨1, some "a", some "dg", some "A", 0, 0, none, false, none, none⟩],
        nextId := 2 } "a" "pw" "B" 5 =
      (.conflict,
       { users := [⟨1, some "a", some "dg", some "A", 0, 0, none, false, none, none⟩],
         nextId := 2 }) :=
  c7_register_conflict_no_duplicate (fun s => s)
    { users := [⟨1, some "a", some "dg", some "A", 0, 0, none, false, none, none⟩],
      nextId := 2 } "a" "pw" "B" 5
    ⟨1, some "a", some "dg", some "A", 0, 0, none, false, none, none⟩ (by decide)

/-- C3: `resetPassword` with a matching unexpired token sets the new password
digest, clears the token pair, resets the counter and unlocks (even if the
account was locked), after which a second reset with the same token fails and
changes nothing; with an absent account, a mismatched token, or an expired
token it returns null and leaves the store entirely unchanged. -/
theorem c3_reset_password_single_use
    (st : Store) (e tok newPw newPw2 : String) (now now2 : Nat) :
    (findByEmail st e = none → resetPassword st e tok newPw now = (none, st)) ∧
    (∀ u, findByEmail st e = some u → u.passwordResetToken ≠ some tok →
      resetPassword st e tok newPw now = (none, st)) ∧
    (∀ u, findByEmail st e = some u → u.passwordResetToken = some tok →
      u.passwordResetExpires.getD 0 < now →
      resetPassword st e tok newPw now = (none, st)) ∧
    (∀ u, findByEmail st e = some u → u.passwordResetToken = some tok →
      now ≤ u.passwordResetExpires.getD 0 →
      (resetPassword st e tok newPw now).1 = some (resetApply u newPw) ∧
      findByEmail (resetPassword st e tok newPw now).2 e = some (resetApply u newPw) ∧
      resetPassword (resetPassword st e tok newPw now).2 e tok newPw2 now2 =
        (none, (resetPassword st e tok newPw now).2)) := by
  refine ⟨?_, ?_, ?_, ?_⟩
  · intro habs
    unfold findByEmail at habs
    unfold resetPassword
    rw [habs]
  · intro u hfind hne
    unfold findByEmail at hfind
    unfold resetPassword
    rw [hfind]
    dsimp only
    rw [if_pos hne]
  · intro u hfind htok hexp
    unfold findByEmail at hfind
    unfold resetPassword
    rw [hfind]
    dsimp only
    rw [if_neg (by simp [htok]), if_pos hexp]
  · intro u hfind htok hexp
    have hfind0 := hfind
    unfold findByEmail at hfind0
    have hstep : resetPassword st e tok newPw now =
        ((updateFirst (fun v => v.email == some e) (fun v => resetApply v newPw) st.users).1,
         { st with users :=
            (updateFirst (fun v => v.email == some e) (fun v => resetApply v newPw) st.users).2 }) := by
      unfold resetPassword
      rw [hfind0]
      dsimp only
      rw [if_neg (by simp [htok]), if_neg (by omega)]
    have hfst : (resetPassword st e tok newPw now).1 = some (resetApply u newPw) := by
      rw [hstep]
      exact updateFirst_fst hfind0
    have hsnd : findByEmail (resetPassword st e tok newPw now).2 e =
        some (resetApply u newPw) := by
      rw [hstep]
      unfold findByEmail
      exact updateFirst_snd_find? hfind0 (by simpa [resetApply] using List.find?_some hfind0)
    refine ⟨hfst, hsnd, ?_⟩
    have hsnd0 := hsnd
    unfold findByEmail at hsnd0
    set st2 := (resetPassword st e tok newPw now).2 with hst2
    unfold resetPassword
    rw [hsnd0]
    dsimp only
    rw [if_pos (by simp [resetApply])]

/-- Witness for C3: a locked account with a valid token at time 5, expiry at
time 100; the successful reset, the resulting record, and the failing second
reset. -/
theorem c3_witness :
    (resetPassword
      { users := [⟨1, some "a", some "dg", some "A", 0, 3, some 0, true, some "tok", some 100⟩],
        nextId := 2 } "a" "tok" "np" 5).1 =
      some (resetApply ⟨1, some "a", some "dg", some "A", 0, 3, some 0, true, some "tok",
        some 100⟩ "np") ∧
    findByEmail (resetPassword
      { users := [⟨1, some "a", some "dg", some "A", 0, 3, some 0, true, some "tok", some 100⟩],
        nextId := 2 } "a" "tok" "np" 5).2 "a" =
      some (resetApply ⟨1, some "a", some "dg", some "A", 0, 3, some 0, true, some "tok",
        some 100⟩ "np") ∧
    resetPassword (resetPassword
      { users := [⟨1, some "a", some "dg", some "A", 0, 3, some 0, true, some "tok", some 100⟩],
        nextId := 2 } "a" "tok" "np" 5).2 "a" "tok" "np2" 6 =
      (none, (resetPassword
        { users := [⟨1, some "a", some "dg", some "A", 0, 3, some 0, true, some "tok", some 100⟩],
          nextId := 2 } "a" "tok" "np" 5).2) :=
  (c3_reset_password_single_use
    { users := [⟨1, some "a", some "dg", some "A", 0, 3, some 0, true, some "tok", some 100⟩],
      nextId := 2 } "a" "tok" "np" "np2" 5 6).2.2.2
    ⟨1, some "a", some "dg", some "A", 0, 3, some 0, true, some "tok", some 100⟩
    (by decide) (by decide) (by decide)

/-- Witness for C4 with a locked account, time 100 in a 2000 ms window. -/
theorem c4_witness :
    login 2000 (fun _ _ => true)
      { users := [⟨1, some "a", some "dg", some "A", 0, 3, some 50, true, none, none⟩],
        nextId := 2 } "a" "right" 100 =
      (.lockedOut,
       { users := [⟨1, some "a", some "dg", some "A", 0, 3, some 50, true, none, none⟩],
         nextId := 2 }) :=
  c4_locked_login_rejected_unchanged 2000 (fun _ _ => true)
    { users := [⟨1, some "a", some "dg", some "A", 0, 3, some 50, true, none, none⟩],
      nextId := 2 } "a" "right" 100 50
    ⟨1, some "a", some "dg", some "A", 0, 3, some 50, true, none, none⟩
    (by decide) (by decide) (by decide) (by decide)

/- ## Store membership after each operation -/

theorem track_users_cases {st : Store} {e : String} {s : Bool} {now : Nat} {u : User}
    (hm : u ∈ (trackLoginAttempt st e s now).2.users) :
    u ∈ st.users ∨ (∃ v, findByEmail st e = some v ∧ u = applyAttempt v s now) ∨
      (findByEmail st e = none ∧ s = false ∧
        u = applyAttempt (User.new st.nextId (some e) none none now) false now) := by
  simp only [trackLoginAttempt] at hm
  cases hfind : st.users.find? (fun v => v.email == some e) with
  | some v =>
    have h1 := updateFirst_fst (f := fun w => applyAttempt w s now) hfind
    rw [h1] at hm
    dsimp only at hm
    rcases updateFirst_mem_find hm with h | ⟨w, hw, hu⟩
    · exact Or.inl h
    · rw [hfind] at hw
      cases hw
      exact Or.inr (Or.inl ⟨v, hfind, hu⟩)
  | none =>
    have h1 := updateFirst_of_find?_none (f := fun w => applyAttempt w s now) hfind
    rw [h1] at hm
    dsimp only at hm
    cases s with
    | true =>
      simp only [if_true] at hm
      exact Or.inl hm
    | false =>
      simp only [Bool.false_eq_true, if_false] at hm
      rcases List.mem_append.1 hm with h | h
      · exact Or.inl h
      · rcases List.mem_singleton.1 h with rfl
        exact Or.inr (Or.inr ⟨hfind, rfl, rfl⟩)

theorem lockCheck_users_cases {dur : Nat} {st : Store} {e : String} {now : Nat} {u : User}
    (hm : u ∈ (isAccountLocked dur st e now).2.users) :
    u ∈ st.users ∨ ∃ v, v ∈ st.users ∧
      u = { v with loginAttempts := 0, isLocked := false } := by
  unfold isAccountLocked at hm
  cases hfind : st.users.find? (fun v => v.email == some e) with
  | none =>
    rw [hfind] at hm
    exact Or.inl hm
  | some v =>
    rw [hfind] at hm
    dsimp only at hm
    by_cases hl : v.isLocked = true
    · rw [if_pos hl] at hm
      exact Or.inl hm
    · rw [if_neg hl] at hm
      cases hla : v.lastLoginAttempt with
      | none =>
        rw [hla] at hm
        exact Or.inl hm
      | some t =>
        rw [hla] at hm
        dsimp only at hm
        by_cases h1 : 3 ≤ v.loginAttempts ∧ (now : Int) - (t : Int) < (dur : Int)
        · rw [if_pos h1] at hm
          exact Or.inl hm
        · rw [if_neg h1] at hm
          by_cases h2 : (dur : Int) ≤ (now : Int) - (t : Int)
          · rw [if_pos h2] at hm
            dsimp only at hm
            rcases updateFirst_mem hm with h | ⟨w, hw, hu⟩
            · exact Or.inl h
            · exact Or.inr ⟨w, hw, hu⟩
          · rw [if_neg h2] at hm
            exact Or.inl hm

theorem genToken_users_cases {ttl : Nat} {st : Store} {e tok : String} {now : Nat} {u : User}
    (hm : u ∈ (generatePasswordResetToken ttl st e tok now).2.users) :
    u ∈ st.users ∨ ∃ v, v ∈ st.users ∧
      u = { v with passwordResetToken := some tok, passwordResetExpires := some (now + ttl) } := by
  simp only [generatePasswordResetToken] at hm
  cases hr : (updateFirst (fun v => v.email == some e)
      (fun v => { v with
        passwordResetToken := some tok
        passwordResetExpires := some (now + ttl) }) st.users).1 with
  | some w =>
    rw [hr] at hm
    dsimp only at hm
    rcases updateFirst_mem hm with h | ⟨v, hv, hu⟩
    · exact Or.inl h
    · exact Or.inr ⟨v, hv, hu⟩
  | none =>
    rw [hr] at hm
    exact Or.inl hm

theorem resetPw_users_cases {st : Store} {e tok npw : String} {now : Nat} {u : User}
    (hm : u ∈ (resetPassword st e tok npw now).2.users) :
    u ∈ st.users ∨ ∃ v, v ∈ st.users ∧ u = resetApply v npw := by
  unfold resetPassword at hm
  cases hfind : st.users.find? (fun v => v.email == some e) with
  | none =>
    rw [hfind] at hm
    exact Or.inl hm
  | some v =>
    rw [hfind] at hm
    dsimp only at hm
    by_cases h1 : v.passwordResetToken ≠ some tok
    · rw [if_pos h1] at hm
      exact Or.inl hm
    · rw [if_neg h1] at hm
      by_cases h2 : v.passwordResetExpires.getD 0 < now
      · rw [if_pos h2] at hm
        exact Or.inl hm
      · rw [if_neg h2] at hm
        dsimp only at hm
        rcases updateFirst_mem hm with h | ⟨w, hw, hu⟩
        · exact Or.inl h
        · exact Or.inr ⟨w, hw, hu⟩

theorem updateNameEmail_users_cases {st : Store} {i : Nat} {nv ev : Option String} {u : User}
    (hm : u ∈ (updateNameEmail st i nv ev).2.users) :
    u ∈ st.users ∨ ∃ v, v ∈ st.users ∧ u = { v with name := nv, email := ev } := by
  simp only [updateNameEmail] at hm
  cases hr : (updateFirst (fun v => v.id == i)
      (fun v => { v with name := nv, email := ev }) st.users).1 with
  | some w =>
    rw [hr] at hm
    dsimp only at hm
    rcases updateFirst_mem hm with h | ⟨v, hv, hu⟩
    · exact Or.inl h
    · exact Or.inr ⟨v, hv, hu⟩
  | none =>
    rw [hr] at hm
    exact Or.inl hm

theorem updatePassword_users_cases {st : Store} {i : Nat} {pw : String} {u : User}
    (hm : u ∈ (updatePassword st i pw).2.users) :
    u ∈ st.users ∨ ∃ v, v ∈ st.users ∧ u = { v with password := some pw } := by
  simp only [updatePassword] at hm
  cases hr : (updateFirst (fun v => v.id == i)
      (fun v => { v with password := some pw }) st.users).1 with
  | some w =>
    rw [hr] at hm
    dsimp only at hm
    rcases updateFirst_mem hm with h | ⟨v, hv, hu⟩
    · exact Or.inl h
    · exact Or.inr ⟨v, hv, hu⟩
  | none =>
    rw [hr] at hm
    exact Or.inl hm

theorem create_users_cases {st : Store} {e pw name : String} {now : Nat} {u : User}
    (hm : u ∈ (Store.create st e pw name now).2.users) :
    u ∈ st.users ∨ u = User.new st.nextId (some e) (some pw) (some name) now := by
  simp only [Store.create] at hm
  rcases List.mem_append.1 hm with h | h
  · exact Or.inl h
  · exact Or.inr (List.mem_singleton.1 h)

/- ## Store shapes of the controller endpoints -/

theorem register_store_cases (hash : String → String) (st : Store) (e pw name : String)
    (now : Nat) :
    (register hash st e pw name now).2 = st ∨
    (register hash st e pw name now).2 = (Store.create st e (hash pw) name now).2 := by
  unfold register
  cases hfind : findByEmail st e with
  | some v => exact Or.inl rfl
  | none => exact Or.inr rfl

theorem requestReset_store_cases (ttl : Nat) (st : Store) (e tok : String) (now : Nat) :
    requestPasswordReset ttl st e tok now = st ∨
    requestPasswordReset ttl st e tok now = (generatePasswordResetToken ttl st e tok now).2 := by
  unfold requestPasswordReset
  cases hfind : findByEmail st e with
  | some v => exact Or.inr rfl
  | none => exact Or.inl rfl

theorem completeReset_store_cases (hash : String → String) (st : Store)
    (e tok newPw : String) (now : Nat) :
    (completeReset hash st e tok newPw now).2 = st ∨
    (completeReset hash st e tok newPw now).2 = (resetPassword st e tok (hash newPw) now).2 := by
  unfold completeReset
  cases hv : verifyPasswordResetToken st e tok now with
  | none => exact Or.inl rfl
  | some v =>
    dsimp only
    cases hr : (resetPassword st e tok (hash newPw) now).1 with
    | none => exact Or.inr rfl
    | some w => exact Or.inr rfl

theorem updateProfile_store_cases (st : Store) (i : Nat) (nv ev : Option String) :
    (updateProfile st i nv ev).2 = st ∨
    (updateProfile st i nv ev).2 = (updateNameEmail st i nv ev).2 := by
  simp only [updateProfile]
  split
  · exact Or.inl rfl
  · split
    · exact Or.inl rfl
    · split
      · exact Or.inl rfl
      · cases hr : (updateNameEmail st i nv ev).1 with
        | none => exact Or.inl rfl
        | some w => exact Or.inr rfl

theorem changePassword_store_cases (hash : String → String)
    (verify : String → String → Bool) (st : Store) (i : Nat) (cur newPw : String) :
    changePassword hash verify st i cur newPw = st ∨
    changePassword hash verify st i cur newPw = (updatePassword st i (hash newPw)).2 := by
  unfold changePassword
  cases hfind : findById st i with
  | none => exact Or.inl rfl
  | some v =>
    dsimp only
    split
    · exact Or.inl rfl
    · split
      · exact Or.inl rfl
      · exact Or.inr rfl

theorem login_store_cases (dur : Nat) (verify : String → String → Bool) (st : Store)
    (e pw : String) (now : Nat) :
    (login dur verify st e pw now).2 = (isAccountLocked dur st e now).2 ∨
    ((isAccountLocked dur st e now).1 = false ∧
      ∃ ok, (login dur verify st e pw now).2 =
        (trackLoginAttempt (isAccountLocked dur st e now).2 e ok now).2) := by
  unfold login
  dsimp only
  by_cases hb : (isAccountLocked dur st e now).1 = true
  · rw [if_pos hb]
    exact Or.inl rfl
  · rw [if_neg hb]
    refine Or.inr ⟨by simpa using hb, ?_⟩
    cases hfind : findByEmail (isAccountLocked dur st e now).2 e with
    | none => exact ⟨false, rfl⟩
    | some v =>
      dsimp only
      cases hok : (match v.password with | some d => verify pw d | none => false) with
      | true => exact ⟨true, rfl⟩
      | false =>
        refine ⟨false, ?_⟩
        simp only [Bool.false_eq_true, if_false]
        split
        · split
          · rfl
          · rfl
        · rfl

/- ## Preservation of the per-user invariants by the model operations -/

theorem lockOk_applyAttempt {u : User} (s : Bool) (now : Nat) (h : lockOk u) :
    lockOk (applyAttempt u s now) := by
  cases s with
  | true =>
    intro hl
    exact absurd hl (by simp [applyAttempt])
  | false =>
    intro hl
    rw [applyAttempt_fail_loginAttempts]
    by_cases hc : u.loginAttempts + 1 < 3
    · rw [applyAttempt_fail_isLocked_lt u now hc] at hl
      have := h hl
      omega
    · omega

theorem lockInv_track {st : Store} (e : String) (s : Bool) (now : Nat)
    (h : ∀ u ∈ st.users, lockOk u) :
    ∀ u ∈ (trackLoginAttempt st e s now).2.users, lockOk u := by
  intro u hm
  rcases track_users_cases hm with hu | ⟨v, hv, rfl⟩ | ⟨_, _, rfl⟩
  · exact h u hu
  · unfold findByEmail at hv
    exact lockOk_applyAttempt s now (h v (List.mem_of_find?_eq_some hv))
  · intro hl
    have : (applyAttempt (User.new st.nextId (some e) none none now) false now).isLocked
        = false := by
      norm_num [applyAttempt, User.new]
    rw [this] at hl
    cases hl

theorem lockInv_lockCheck {st : Store} (dur : Nat) (e : String) (now : Nat)
    (h : ∀ u ∈ st.users, lockOk u) :
    ∀ u ∈ (isAccountLocked dur st e now).2.users, lockOk u := by
  intro u hm
  rcases lockCheck_users_cases hm with hu | ⟨v, hv, rfl⟩
  · exact h u hu
  · intro hl
    simp at hl

theorem lockInv_genToken {st : Store} (ttl : Nat) (e tok : String) (now : Nat)
    (h : ∀ u ∈ st.users, lockOk u) :
    ∀ u ∈ (generatePasswordResetToken ttl st e tok now).2.users, lockOk u := by
  intro u hm
  rcases genToken_users_cases hm with hu | ⟨v, hv, rfl⟩
  · exact h u hu
  · exact h v hv

theorem lockInv_resetPw {st : Store} (e tok npw : String) (now : Nat)
    (h : ∀ u ∈ st.users, lockOk u) :
    ∀ u ∈ (resetPassword st e tok npw now).2.users, lockOk u := by
  intro u hm
  rcases resetPw_users_cases hm with hu | ⟨v, hv, rfl⟩
  · exact h u hu
  · intro hl
    simp [resetApply] at hl

theorem lockInv_updateNameEmail {st : Store} (i : Nat) (nv ev : Option String)
    (h : ∀ u ∈ st.users, lockOk u) :
    ∀ u ∈ (updateNameEmail st i nv ev).2.users, lockOk u := by
  intro u hm
  rcases updateNameEmail_users_cases hm with hu | ⟨v, hv, rfl⟩
  · exact h u hu
  · exact h v hv

theorem lockInv_updatePassword {st : Store} (i : Nat) (pw : String)
    (h : ∀ u ∈ st.users, lockOk u) :
    ∀ u ∈ (updatePassword st i pw).2.users, lockOk u := by
  intro u hm
  rcases updatePassword_users_cases hm with hu | ⟨v, hv, rfl⟩
  · exact h u hu
  · exact h v hv

theorem lockInv_create {st : Store} (e pw name : String) (now : Nat)
    (h : ∀ u ∈ st.users, lockOk u) :
    ∀ u ∈ (Store.create st e pw name now).2.users, lockOk u := by
  intro u hm
  rcases create_users_cases hm with hu | rfl
  · exact h u hu
  · intro hl
    simp [User.new] at hl

theorem cnt_track {st : Store} {e : String} (s : Bool) (now : Nat)
    (hsafe : ∀ v, findByEmail st e = some v → s = false → v.loginAttempts ≤ 2)
    (h : ∀ u ∈ st.users, cntOk u) :
    ∀ u ∈ (trackLoginAttempt st e s now).2.users, cntOk u := by
  intro u hm
  rcases track_users_cases hm with hu | ⟨v, hv, rfl⟩ | ⟨_, hs, rfl⟩
  · exact h u hu
  · cases s with
    | true =>
      refine ⟨by simp [applyAttempt], fun hne => ?_⟩
      exact absurd (show (applyAttempt v true now).loginAttempts = 0 by
        simp [applyAttempt]) hne
    | false =>
      have hc := hsafe v hv rfl
      refine ⟨by rw [applyAttempt_fail_loginAttempts]; omega, fun _ => ?_⟩
      rw [applyAttempt_fail_last]
      simp
  · refine ⟨by rw [applyAttempt_fail_loginAttempts]; norm_num [User.new], fun _ => ?_⟩
    rw [applyAttempt_fail_last]
    simp

theorem cnt_lockCheck {st : Store} (dur : Nat) (e : String) (now : Nat)
    (h : ∀ u ∈ st.users, cntOk u) :
    ∀ u ∈ (isAccountLocked dur st e now).2.users, cntOk u := by
  intro u hm
  rcases lockCheck_users_cases hm with hu | ⟨v, hv, rfl⟩
  · exact h u hu
  · exact ⟨by simp, fun hne => absurd rfl hne⟩

theorem cnt_genToken {st : Store} (ttl : Nat) (e tok : String) (now : Nat)
    (h : ∀ u ∈ st.users, cntOk u) :
    ∀ u ∈ (generatePasswordResetToken ttl st e tok now).2.users, cntOk u := by
  intro u hm
  rcases genToken_users_cases hm with hu | ⟨v, hv, rfl⟩
  · exact h u hu
  · exact h v hv

theorem cnt_resetPw {st : Store} (e tok npw : String) (now : Nat)
    (h : ∀ u ∈ st.users, cntOk u) :
    ∀ u ∈ (resetPassword st e tok npw now).2.users, cntOk u := by
  intro u hm
  rcases resetPw_users_cases hm with hu | ⟨v, hv, rfl⟩
  · exact h u hu
  · exact ⟨by simp [resetApply], fun hne => absurd rfl hne⟩

theorem cnt_updateNameEmail {st : Store} (i : Nat) (nv ev : Option String)
    (h : ∀ u ∈ st.users, cntOk u) :
    ∀ u ∈ (updateNameEmail st i nv ev).2.users, cntOk u := by
  intro u hm
  rcases updateNameEmail_users_cases hm with hu | ⟨v, hv, rfl⟩
  · exact h u hu
  · exact h v hv

theorem cnt_updatePassword {st : Store} (i : Nat) (pw : String)
    (h : ∀ u ∈ st.users, cntOk u) :
    ∀ u ∈ (updatePassword st i pw).2.users, cntOk u := by
  intro u hm
  rcases updatePassword_users_cases hm with hu | ⟨v, hv, rfl⟩
  · exact h u hu
  · exact h v hv

theorem cnt_create {st : Store} (e pw name : String) (now : Nat)
    (h : ∀ u ∈ st.users, cntOk u) :
    ∀ u ∈ (Store.create st e pw name now).2.users, cntOk u := by
  intro u hm
  rcases create_users_cases hm with hu | rfl
  · exact h u hu
  · exact ⟨by simp [User.new], fun hne => absurd rfl hne⟩

/-- When `isAccountLocked` answers false, the account it leaves behind for
that email (if any) has at most 2 failed attempts — this is what makes the
subsequent `trackLoginAttempt` unable to push the counter past 3. -/
theorem lockCheck_false_count {dur : Nat} {st : Store} {e : String} {now : Nat}
    (h : ∀ u ∈ st.users, cntOk u)
    (hb : (isAccountLocked dur st e now).1 = false) :
    ∀ v, findByEmail (isAccountLocked dur st e now).2 e = some v →
      v.loginAttempts ≤ 2 := by
  intro v hv
  unfold isAccountLocked at hb hv
  cases hfind : st.users.find? (fun w => w.email == some e) with
  | none =>
    rw [hfind] at hv
    unfold findByEmail at hv
    dsimp only at hv
    rw [hfind] at hv
    cases hv
  | some w =>
    rw [hfind] at hb hv
    dsimp only at hb hv
    have hw := h w (List.mem_of_find?_eq_some hfind)
    by_cases hl : w.isLocked = true
    · rw [if_pos hl] at hb
      exact absurd hb (by simp)
    · rw [if_neg hl] at hb hv
      cases hla : w.lastLoginAttempt with
      | none =>
        rw [hla] at hv
        unfold findByEmail at hv
        dsimp only at hv
        rw [hfind] at hv
        cases hv
        rcases hw with ⟨hw1, hw2⟩
        by_cases h0 : v.loginAttempts = 0
        · omega
        · exact absurd hla (hw2 h0)
      | some t =>
        rw [hla] at hb hv
        dsimp only at hb hv
        by_cases h1 : 3 ≤ w.loginAttempts ∧ (now : Int) - (t : Int) < (dur : Int)
        · rw [if_pos h1] at hb
          exact absurd hb (by simp)
        · rw [if_neg h1] at hb hv
          by_cases h2 : (dur : Int) ≤ (now : Int) - (t : Int)
          · rw [if_pos h2] at hv
            dsimp only at hv
            unfold findByEmail at hv
            dsimp only at hv
            rw [updateFirst_snd_find? hfind (by simpa using List.find?_some hfind)] at hv
            cases hv
            show ({ w with loginAttempts := 0, isLocked := false } : User).loginAttempts ≤ 2
            simp
          · rw [if_neg h2] at hv
            unfold findByEmail at hv
            dsimp only at hv
            rw [hfind] at hv
            cases hv
            omega

/- ## Preservation of the invariants by the controller endpoints -/

theorem lockInv_register {st : Store} (hash : String → String) (e pw name : String)
    (now : Nat) (h : ∀ u ∈ st.users, lockOk u) :
    ∀ u ∈ (register hash st e pw name now).2.users, lockOk u := by
  rcases register_store_cases hash st e pw name now with hs | hs
  · rw [hs]; exact h
  · rw [hs]; exact lockInv_create e (hash pw) name now h

theorem lockInv_login {st : Store} (dur : Nat) (verify : String → String → Bool)
    (e pw : String) (now : Nat) (h : ∀ u ∈ st.users, lockOk u) :
    ∀ u ∈ (login dur verify st e pw now).2.users, lockOk u := by
  have h2 := lockInv_lockCheck dur e now h
  rcases login_store_cases dur verify st e pw now with hs | ⟨_, ok, hs⟩
  · rw [hs]; exact h2
  · rw [hs]; exact lockInv_track e ok now h2

theorem lockInv_requestReset {st : Store} (ttl : Nat) (e tok : String) (now : Nat)
    (h : ∀ u ∈ st.users, lockOk u) :
    ∀ u ∈ (requestPasswordReset ttl st e tok now).users, lockOk u := by
  rcases requestReset_store_cases ttl st e tok now with hs | hs
  · rw [hs]; exact h
  · rw [hs]; exact lockInv_genToken ttl e tok now h

theorem lockInv_completeReset {st : Store} (hash : String → String)
    (e tok newPw : String) (now : Nat) (h : ∀ u ∈ st.users, lockOk u) :
    ∀ u ∈ (completeReset hash st e tok newPw now).2.users, lockOk u := by
  rcases completeReset_store_cases hash st e tok newPw now with hs | hs
  · rw [hs]; exact h
  · rw [hs]; exact lockInv_resetPw e tok (hash newPw) now h

theorem lockInv_updateProfile {st : Store} (i : Nat) (nv ev : Option String)
    (h : ∀ u ∈ st.users, lockOk u) :
    ∀ u ∈ (updateProfile st i nv ev).2.users, lockOk u := by
  rcases updateProfile_store_cases st i nv ev with hs | hs
  · rw [hs]; exact h
  · rw [hs]; exact lockInv_updateNameEmail i nv ev h

theorem lockInv_changePassword {st : Store} (hash : String → String)
    (verify : String → String → Bool) (i : Nat) (cur newPw : String)
    (h : ∀ u ∈ st.users, lockOk u) :
    ∀ u ∈ (changePassword hash verify st i cur newPw).users, lockOk u := by
  rcases changePassword_store_cases hash verify st i cur newPw with hs | hs
  · rw [hs]; exact h
  · rw [hs]; exact lockInv_updatePassword i (hash newPw) h

theorem cnt_register {st : Store} (hash : String → String) (e pw name : String)
    (now : Nat) (h : ∀ u ∈ st.users, cntOk u) :
    ∀ u ∈ (register hash st e pw name now).2.users, cntOk u := by
  rcases register_store_cases hash st e pw name now with hs | hs
  · rw [hs]; exact h
  · rw [hs]; exact cnt_create e (hash pw) name now h

theorem cnt_login {st : Store} (dur : Nat) (verify : String → String → Bool)
    (e pw : String) (now : Nat) (h : ∀ u ∈ st.users, cntOk u) :
    ∀ u ∈ (login dur verify st e pw now).2.users, cntOk u := by
  have h2 := cnt_lockCheck dur e now h
  rcases login_store_cases dur verify st e pw now with hs | ⟨hb, ok, hs⟩
  · rw [hs]; exact h2
  · rw [hs]
    refine cnt_track ok now (fun v hv _ => ?_) h2
    exact lockCheck_false_count h hb v hv

theorem cnt_requestReset {st : Store} (ttl : Nat) (e tok : String) (now : Nat)
    (h : ∀ u ∈ st.users, cntOk u) :
    ∀ u ∈ (requestPasswordReset ttl st e tok now).users, cntOk u := by
  rcases requestReset_store_cases ttl st e tok now with hs | hs
  · rw [hs]; exact h
  · rw [hs]; exact cnt_genToken ttl e tok now h

theorem cnt_completeReset {st : Store} (hash : String → String)
    (e tok newPw : String) (now : Nat) (h : ∀ u ∈ st.users, cntOk u) :
    ∀ u ∈ (completeReset hash st e tok newPw now).2.users, cntOk u := by
  rcases completeReset_store_cases hash st e tok newPw now with hs | hs
  · rw [hs]; exact h
  · rw [hs]; exact cnt_resetPw e tok (hash newPw) now h

theorem cnt_updateProfile {st : Store} (i : Nat) (nv ev : Option String)
    (h : ∀ u ∈ st.users, cntOk u) :
    ∀ u ∈ (updateProfile st i nv ev).2.users, cntOk u := by
  rcases updateProfile_store_cases st i nv ev with hs | hs
  · rw [hs]; exact h
  · rw [hs]; exact cnt_updateNameEmail i nv ev h

theorem cnt_changePassword {st : Store} (hash : String → String)
    (verify : String → String → Bool) (i : Nat) (cur newPw : String)
    (h : ∀ u ∈ st.users, cntOk u) :
    ∀ u ∈ (changePassword hash verify st i cur newPw).users, cntOk u := by
  rcases changePassword_store_cases hash verify st i cur newPw with hs | hs
  · rw [hs]; exact h
  · rw [hs]; exact cnt_updatePassword i (hash newPw) h

/-- C8: in every reachable store state — reachability closed under the
controller endpoints and under direct invocations of attempt tracking, the
lock check with its implicit unlock, token generation, reset completion and
record creation — every account with `isLocked` set has accumulated at least
3 failed attempts. -/
theorem c8_locked_implies_three_attempts (st : Store) (h : Reachable st) :
    ∀ u ∈ st.users, u.isLocked = true → 3 ≤ u.loginAttempts := by
  induction h with
  | init => intro u hm; simp [Store.empty] at hm
  | register hash e pw name now hprev ih => exact lockInv_register hash e pw name now ih
  | login dur verify e pw now hprev ih => exact lockInv_login dur verify e pw now ih
  | requestReset ttl e tok now hprev ih => exact lockInv_requestReset ttl e tok now ih
  | completeReset hash e tok newPw now hprev ih =>
    exact lockInv_completeReset hash e tok newPw now ih
  | updateProfile i nv ev hprev ih => exact lockInv_updateProfile i nv ev ih
  | changePassword hash verify i cur newPw hprev ih =>
    exact lockInv_changePassword hash verify i cur newPw ih
  | create e pw name now hprev ih => exact lockInv_create e pw name now ih
  | track e s now hprev ih => exact lockInv_track e s now ih
  | lockCheck dur e now hprev ih => exact lockInv_lockCheck dur e now ih
  | genToken ttl e tok now hprev ih => exact lockInv_genToken ttl e tok now ih
  | resetPw e tok newPw now hprev ih => exact lockInv_resetPw e tok newPw now ih

/-- Witness for C8: the store reached by three failed logins against an
unknown email, whose single (placeholder) record is locked with 3 attempts. -/
theorem c8_witness :
    3 ≤ (⟨1, some "a", none, none, 0, 3, some 2, true, none, none⟩ : User).loginAttempts :=
  c8_locked_implies_three_attempts
    (login 2000 (fun _ _ => false)
      (login 2000 (fun _ _ => false)
        (login 2000 (fun _ _ => false) Store.empty "a" "x" 0).2 "a" "x" 1).2 "a" "x" 2).2
    (Reachable.login 2000 (fun _ _ => false) "a" "x" 2
      (Reachable.login 2000 (fun _ _ => false) "a" "x" 1
        (Reachable.login 2000 (fun _ _ => false) "a" "x" 0 Reachable.init)))
    ⟨1, some "a", none, none, 0, 3, some 2, true, none, none⟩ (by decide) (by decide)

/-- C10: in every store state reachable through the controller endpoints,
every account has `failedAttemptCount ≤ 3`: the lock check runs before any
attempt is recorded, so no sequence of logins drives the counter past the
threshold. -/
theorem c10_attempts_le_three (st : Store) (h : ReachableC st) :
    ∀ u ∈ st.users, u.loginAttempts ≤ 3 := by
  have key : ∀ u ∈ st.users, cntOk u := by
    induction h with
    | init => intro u hm; simp [Store.empty] at hm
    | register hash e pw name now hprev ih => exact cnt_register hash e pw name now ih
    | login dur verify e pw now hprev ih => exact cnt_login dur verify e pw now ih
    | requestReset ttl e tok now hprev ih => exact cnt_requestReset ttl e tok now ih
    | completeReset hash e tok newPw now hprev ih =>
      exact cnt_completeReset hash e tok newPw now ih
    | updateProfile i nv ev hprev ih => exact cnt_updateProfile i nv ev ih
    | changePassword hash verify i cur newPw hprev ih =>
      exact cnt_changePassword hash verify i cur newPw ih
  intro u hm
  exact (key u hm).1

/-- Witness for C10: after four failed logins against an unknown email (the
fourth rejected by the lock check), the placeholder's counter is exactly 3. -/
theorem c10_witness :
    (⟨1, some "a", none, none, 0, 3, some 2, true, none, none⟩ : User).loginAttempts ≤ 3 :=
  c10_attempts_le_three
    (login 2000 (fun _ _ => false)
      (login 2000 (fun _ _ => false)
        (login 2000 (fun _ _ => false)
          (login 2000 (fun _ _ => false) Store.empty "a" "x" 0).2 "a" "x" 1).2
        "a" "x" 2).2 "a" "x" 3).2
    (ReachableC.login 2000 (fun _ _ => false) "a" "x" 3
      (ReachableC.login 2000 (fun _ _ => false) "a" "x" 2
        (ReachableC.login 2000 (fun _ _ => false) "a" "x" 1
          (ReachableC.login 2000 (fun _ _ => false) "a" "x" 0 ReachableC.init))))
    ⟨1, some "a", none, none, 0, 3, some 2, true, none, none⟩ (by decide)

end LoginApi
